import Mathlib

/-!
Shallow embedding of the pico VFS multiplexer (src/pico_vfs/vfs.c) and of the
pico block-device layer (src/pico_blockdev/blockdev.c and partition.c),
together with theorems settling the claims about path resolution, backend
registration, descriptor-table maintenance, the root directory backend and
the MS-DOS partition scanner.
-/

/-- MAX_FDS from vfs.c. -/
def MAX_FDS : Nat := 16

/-- VFS_MAX_COUNT from vfs.c. -/
def VFS_MAX_COUNT : Nat := 4

/-- Modelled from the spec: PATH_MAX_PREFIX (PICO_VFS_BASE_PATH_MAX) is a
compile-time parameter declared in the header pico/vfs.h, which is not part
of the sources under src.  Its exact value is not fixed by the spec and no
claim below depends on it. -/
def PICO_VFS_BASE_PATH_MAX : Nat := 32

/-- newlib errno values used by vfs.c. -/
def ENOENT : Int := 2

def EBADF : Int := 9

def ENOMEM : Int := 12

def EBUSY : Int := 16

def EINVAL : Int := 22

def ENFILE : Int := 23

def ENOSYS : Int := 88

def EALREADY : Int := 120

/-- One pico_vfs_entry_t: the stored path prefix string (the path_prefix
field of the source, as a character list), whether path_prefix_len is the
LEN_PATH_PREFIX_IGNORED sentinel, and the index field (the slot number).
For a non-sentinel entry the source keeps path_prefix_len equal to
strlen(path_prefix), so that length is represented by prefixPath.length. -/
structure VfsEntry where
  prefixPath : List Char
  ignored : Bool
  index : Nat
deriving DecidableEq

/-- The matching rule as worded by the claim: the entry is not an
ignored-sentinel entry, its stored string is a leading piece of the path,
and if it is non-empty and strictly shorter than the path the next path
character is a slash. -/
def specMatches (path : List Char) (e : VfsEntry) : Prop :=
  e.ignored = false ∧ path.take e.prefixPath.length = e.prefixPath ∧
    (0 < e.prefixPath.length → e.prefixPath.length < path.length →
      path[e.prefixPath.length]? = some '/')

instance (path : List Char) (e : VfsEntry) : Decidable (specMatches path e) := by
  unfold specMatches
  infer_instance

/-- Loop body of pico_vfs_get_vfs_entry_for_path in vfs.c.  The accumulator
is the pair (best_match, best_match_prefix_len), started at (NULL, -1).
Each branch mirrors one continue/assignment of the C loop in order. -/
def resolveStep (path : List Char) (acc : Option VfsEntry × Int)
    (slot : Option VfsEntry) : Option VfsEntry × Int :=
  match slot with
  | none => acc
  | some vfs =>
    if vfs.ignored = true then acc
    else if path.length < vfs.prefixPath.length ∨
        ¬ path.take vfs.prefixPath.length = vfs.prefixPath then acc
    else if vfs.prefixPath.length = 0 ∧ acc.1 = none then (some vfs, acc.2)
    else if vfs.prefixPath.length < path.length ∧
        ¬ path[vfs.prefixPath.length]? = some '/' then acc
    else if acc.2 < (vfs.prefixPath.length : Int) then
      (some vfs, (vfs.prefixPath.length : Int))
    else acc

/-- pico_vfs_get_vfs_entry_for_path from vfs.c: fold the loop body over the
registry slots s_vfs[0 .. s_vfs_count) and return best_match. -/
def pico_vfs_get_vfs_entry_for_path (reg : List (Option VfsEntry))
    (path : List Char) : Option VfsEntry :=
  (reg.foldl (resolveStep path) (none, -1)).1

/-- translate_path from vfs.c: the backend sees the path with the matched
leading piece removed, or "/" when the path equals it exactly. -/
def translate_path (pre path : List Char) : List Char :=
  if path.length = pre.length then ['/'] else path.drop pre.length

/-- Invariant carried through the resolution fold: over the slots seen so
far, best_match is sound (a matching entry of maximal stored length) and
complete (it is NULL only when no seen entry matches), and
best_match_prefix_len is either that length or still -1 (which the source
leaves untouched when the default empty entry was taken). -/
def ResolveInv (path : List Char) (seen : List (Option VfsEntry))
    (acc : Option VfsEntry × Int) : Prop :=
  (acc.1 = none → acc.2 = -1 ∧ ∀ e, some e ∈ seen → ¬ specMatches path e) ∧
  (∀ e, acc.1 = some e →
    some e ∈ seen ∧ specMatches path e ∧
    (acc.2 = (e.prefixPath.length : Int) ∨
      (acc.2 = -1 ∧ e.prefixPath.length = 0)) ∧
    ∀ e', some e' ∈ seen → specMatches path e' →
      e'.prefixPath.length ≤ e.prefixPath.length)

/-- Concrete registry for the resolution witness: a backend at /devices and
a backend at /dev. -/
def devEntryW : VfsEntry := ⟨['/', 'd', 'e', 'v'], false, 1⟩

def devicesEntryW : VfsEntry :=
  ⟨['/', 'd', 'e', 'v', 'i', 'c', 'e', 's'], false, 0⟩

def regW : List (Option VfsEntry) := [some devicesEntryW, some devEntryW]

def pathW : List Char := ['/', 'd', 'e', 'v', '/', 'x']

/-- One pico_vfs_fd_table_t row: backend slot index (-1 when free), the
backend-local descriptor, and the permanent flag. -/
structure FdRow where
  vfs_index : Int
  local_fd : Int
  permanent : Bool
deriving DecidableEq

/-- FD_TABLE_ENTRY_UNUSED from vfs.c. -/
def FD_TABLE_ENTRY_UNUSED : FdRow := ⟨-1, -1, false⟩

/-- The registry globals of vfs.c: the s_vfs slot array (VFS_MAX_COUNT
slots) and s_vfs_count. -/
structure RegistryState where
  s_vfs : List (Option VfsEntry)
  s_vfs_count : Nat
deriving DecidableEq

def initRegistry : RegistryState := ⟨List.replicate VFS_MAX_COUNT none, 0⟩

def emptyFdTable : List FdRow := List.replicate MAX_FDS FD_TABLE_ENTRY_UNUSED

/-- Slot search of pico_vfs_register_common: the first NULL slot below
s_vfs_count, or s_vfs_count itself when none is free there. -/
def vfsFindFreeSlot (l : List (Option VfsEntry)) (count : Nat) : Nat :=
  match (l.take count).findIdx? (fun s => s.isNone) with
  | some i => i
  | none => count

/-- Allocation phase of pico_vfs_register_common: malloc of the entry (the
mallocOk oracle), slot search, possible growth of s_vfs_count, and filling
of the entry fields.  Result: new registry, return code, written out-index
(some only on the success path, like *vfs_index). -/
def vfsRegisterAlloc (st : RegistryState) (mallocOk : Bool)
    (base_path : List Char) (len : Option Nat) :
    RegistryState × Int × Option Nat :=
  if mallocOk = false then (st, ENOMEM, none)
  else
    if vfsFindFreeSlot st.s_vfs st.s_vfs_count = st.s_vfs_count ∧
        VFS_MAX_COUNT ≤ st.s_vfs_count then (st, ENOMEM, none)
    else
      (⟨st.s_vfs.set (vfsFindFreeSlot st.s_vfs st.s_vfs_count)
          (some ⟨(match len with | some _ => base_path | none => []),
            len.isNone, vfsFindFreeSlot st.s_vfs st.s_vfs_count⟩),
        (if vfsFindFreeSlot st.s_vfs st.s_vfs_count = st.s_vfs_count then
          st.s_vfs_count + 1 else st.s_vfs_count)⟩,
        0, some (vfsFindFreeSlot st.s_vfs st.s_vfs_count))

/-- pico_vfs_register_common from vfs.c.  len models the size_t argument,
with none standing for the LEN_PATH_PREFIX_IGNORED sentinel.  The two
validation ifs of the source are the two disjunction groups.  The return
codes are the positive errno values the source returns. -/
def pico_vfs_register_common (st : RegistryState) (mallocOk : Bool)
    (base_path : List Char) (len : Option Nat) :
    RegistryState × Int × Option Nat :=
  match len with
  | some l =>
    if ((¬ l = 0) ∧ l < 2) ∨ PICO_VFS_BASE_PATH_MAX < l ∨
        (0 < l ∧ ¬ base_path[0]? = some '/') ∨
        (0 < l ∧ base_path[l - 1]? = some '/') then
      (st, EINVAL, none)
    else vfsRegisterAlloc st mallocOk base_path (some l)
  | none => vfsRegisterAlloc st mallocOk base_path none

/-- Result of pico_vfs_register: new registry, return value, and whether
pico_vfs_register_event was emitted. -/
structure RegisterResult where
  reg : RegistryState
  ret : Int
  event : Bool
deriving DecidableEq

/-- pico_vfs_register from vfs.c: index starts at -1, register_common runs
with strlen(base_path), and the r < 0 early-return guard decides whether
the registration event fires. -/
def pico_vfs_register (st : RegistryState) (mallocOk : Bool)
    (base_path : List Char) : RegisterResult :=
  match pico_vfs_register_common st mallocOk base_path
      (some base_path.length) with
  | (st2, r, idxOpt) =>
    if r < 0 then ⟨st2, r, false⟩
    else
      ⟨st2, (match idxOpt with | some i => (i : Int) | none => -1), true⟩

/-- Result of pico_vfs_unregister: registry, untouched descriptor table,
return value, and whether pico_vfs_deregister_event fired. -/
structure UnregisterResult where
  reg : RegistryState
  table : List FdRow
  ret : Int
  event : Bool
deriving DecidableEq

/-- pico_vfs_unregister from vfs.c: frees and clears s_vfs[index] when
occupied and emits the deregistration event; the descriptor table is not
referenced at all. -/
def pico_vfs_unregister (st : RegistryState) (table : List FdRow)
    (index : Nat) : UnregisterResult :=
  match st.s_vfs.getD index none with
  | some _ => ⟨⟨st.s_vfs.set index none, st.s_vfs_count⟩, table, 0, true⟩
  | none => ⟨st, table, -1, false⟩

/-- Rollback loop of pico_vfs_register_fd_range_for_vfs_index: for
j in [min_fd, iEnd) reset every row holding this backend index. -/
def rollbackGo (index min_fd iEnd : Int) : Nat → List FdRow → List FdRow
  | _, [] => []
  | j, r :: rs =>
    (if min_fd ≤ (j : Int) ∧ (j : Int) < iEnd ∧ r.vfs_index = index then
      FD_TABLE_ENTRY_UNUSED
    else r) :: rollbackGo index min_fd iEnd (j + 1) rs

/-- Main loop of pico_vfs_register_fd_range_for_vfs_index, one fuel unit
per iteration of the for (i = min_fd; i <= max_fd) loop.  Along with the
table and return code it records the list of row indices the loop writes
(the source writes s_fd_table[i] with no bound check). -/
def fdRangeGo (index min_fd : Int) :
    Int → Nat → List FdRow → List Nat → List FdRow × Int × List Nat
  | _, 0, table, writes => (table, 0, writes)
  | i, Nat.succ fuel, table, writes =>
    if ¬ (table.getD i.toNat FD_TABLE_ENTRY_UNUSED).vfs_index = -1 then
      (rollbackGo index min_fd i 0 table, EINVAL, writes)
    else
      fdRangeGo index min_fd (i + 1) fuel
        (table.set i.toNat ⟨index, i, true⟩) (writes ++ [i.toNat])

/-- pico_vfs_register_fd_range_for_vfs_index from vfs.c. -/
def pico_vfs_register_fd_range_for_vfs_index (table : List FdRow)
    (index : Int) (min_fd max_fd : Int) : List FdRow × Int × List Nat :=
  fdRangeGo index min_fd min_fd (max_fd + 1 - min_fd).toNat table []

/-- Result of pico_vfs_register_fd_range: registry, table, return value and
the written row indices. -/
structure FdRangeResult where
  reg : RegistryState
  table : List FdRow
  ret : Int
  writes : List Nat
deriving DecidableEq

/-- pico_vfs_register_fd_range from vfs.c: argument validation (note the
min_fd > MAX_FDS / max_fd > MAX_FDS comparisons of the source), then
registration with the ignored sentinel, then the row reservation. -/
def pico_vfs_register_fd_range (st : RegistryState) (table : List FdRow)
    (mallocOk : Bool) (min_fd max_fd : Int) : FdRangeResult :=
  if min_fd < 0 ∨ max_fd < 0 ∨ (MAX_FDS : Int) < min_fd ∨
      (MAX_FDS : Int) < max_fd ∨ max_fd < min_fd then
    ⟨st, table, EINVAL, []⟩
  else
    match pico_vfs_register_common st mallocOk [] none with
    | (st2, ret, idxOpt) =>
      if ret = 0 then
        match pico_vfs_register_fd_range_for_vfs_index table
            (match idxOpt with | some i => (i : Int) | none => -1)
            min_fd max_fd with
        | (table2, r2, writes) =>
          if ¬ r2 = 0 then ⟨st2, table2, -1, writes⟩
          else
            ⟨st2, table2,
              (match idxOpt with | some i => (i : Int) | none => -1), writes⟩
      else ⟨st2, table, -1, []⟩

/-- A backend vtable for one entry, restricted to the operations the claims
exercise: pico_vfs_ops_t.open and pico_vfs_ops_t.close, each possibly a
NULL function pointer.  open returns the int result together with the
descriptor it stores through its out parameter. -/
structure VfsOpsM where
  openF : Option (List Char → Int → Int → Int × Int)
  closeF : Option (Int → Int)

/-- The descriptor-allocation loop of pico_vfs_open: index of the first row
whose vfs_index is -1. -/
def openFindSlot : List FdRow → Option Nat
  | [] => none
  | r :: rs =>
    if r.vfs_index = -1 then some 0
    else (openFindSlot rs).map (fun j => j + 1)

/-- Result of pico_vfs_open: table, return value, final errno value (none
when never set), and the local descriptors passed to the backend close. -/
structure OpenResult where
  table : List FdRow
  ret : Int
  errno : Option Int
  closeCalls : List Int
deriving DecidableEq

/-- pico_vfs_open from vfs.c: resolve the path (ENOENT when no backend),
translate it, call the backend open (ENOSYS when absent); on local
success take the first free row and return its index, and when the table
is full call the backend close on the just-obtained local descriptor,
overwrite errno with ENFILE and return -1.  The ops environment maps each
entry index to its vtable. -/
def pico_vfs_open (st : RegistryState) (table : List FdRow)
    (ops : Nat → VfsOpsM) (path : List Char) (flags mode : Int) :
    OpenResult :=
  match pico_vfs_get_vfs_entry_for_path (st.s_vfs.take st.s_vfs_count)
      path with
  | none => ⟨table, -1, some ENOENT, []⟩
  | some vfs =>
    match (ops vfs.index).openF with
    | none => ⟨table, -1, some ENOSYS, []⟩
    | some f =>
      if (f (translate_path vfs.prefixPath path) flags mode).1 = 0 then
        match openFindSlot table with
        | some i =>
          ⟨table.set i ⟨(vfs.index : Int),
              (f (translate_path vfs.prefixPath path) flags mode).2,
              false⟩,
            (i : Int), none, []⟩
        | none =>
          match (ops vfs.index).closeF with
          | none => ⟨table, -1, some ENFILE, []⟩
          | some _ =>
            ⟨table, -1, some ENFILE,
              [(f (translate_path vfs.prefixPath path) flags mode).2]⟩
      else
        if (f (translate_path vfs.prefixPath path) flags mode).1 < 0 then
          ⟨table, (f (translate_path vfs.prefixPath path) flags mode).1,
            some (-(f (translate_path vfs.prefixPath path) flags mode).1),
            []⟩
        else
          ⟨table, (f (translate_path vfs.prefixPath path) flags mode).1,
            none, []⟩

/-- pico_vfs_get_vfs_entry_for_index from vfs.c. -/
def pico_vfs_get_vfs_entry_for_index (st : RegistryState) (index : Int) :
    Option VfsEntry :=
  if index < 0 ∨ (st.s_vfs_count : Int) ≤ index then none
  else st.s_vfs.getD index.toNat none

/-- pico_vfs_get_vfs_for_fd from vfs.c. -/
def pico_vfs_get_vfs_for_fd (st : RegistryState) (table : List FdRow)
    (fd : Int) : Option VfsEntry :=
  if fd < (MAX_FDS : Int) ∧ 0 ≤ fd then
    pico_vfs_get_vfs_entry_for_index st
      (table.getD fd.toNat FD_TABLE_ENTRY_UNUSED).vfs_index
  else none

/-- pico_vfs_local_fd from vfs.c. -/
def pico_vfs_local_fd (vfs : Option VfsEntry) (table : List FdRow)
    (fd : Int) : Int :=
  if vfs.isSome = true ∧ fd < (MAX_FDS : Int) ∧ 0 ≤ fd then
    (table.getD fd.toNat FD_TABLE_ENTRY_UNUSED).local_fd
  else -1

/-- Result of pico_vfs_close. -/
structure CloseResult where
  table : List FdRow
  ret : Int
  errno : Option Int
deriving DecidableEq

/-- pico_vfs_close from vfs.c: the VFSDECL_R descriptor lookup (EBADF on
failure), the VFSCALL_R backend close (ENOSYS when absent, errno from a
negative result), and the row release when the close succeeded and the
row is not permanent. -/
def pico_vfs_close (st : RegistryState) (table : List FdRow)
    (ops : Nat → VfsOpsM) (fd : Int) : CloseResult :=
  match pico_vfs_get_vfs_for_fd st table fd with
  | none => ⟨table, -1, some EBADF⟩
  | some vfs =>
    if pico_vfs_local_fd (some vfs) table fd = -1 then
      ⟨table, -1, some EBADF⟩
    else
      match (ops vfs.index).closeF with
      | none => ⟨table, -1, some ENOSYS⟩
      | some c =>
        if c (pico_vfs_local_fd (some vfs) table fd) = 0 then
          (if (table.getD fd.toNat FD_TABLE_ENTRY_UNUSED).permanent =
              true then
            ⟨table, 0, none⟩
          else ⟨table.set fd.toNat FD_TABLE_ENTRY_UNUSED, 0, none⟩)
        else
          (if c (pico_vfs_local_fd (some vfs) table fd) < 0 then
            ⟨table, c (pico_vfs_local_fd (some vfs) table fd),
              some (-(c (pico_vfs_local_fd (some vfs) table fd)))⟩
          else ⟨table, c (pico_vfs_local_fd (some vfs) table fd), none⟩)

/-- The descriptor-table invariant of the claim: every row is free or its
backend index is the number of an occupied registry slot. -/
def fdInv (st : RegistryState) (table : List FdRow) : Prop :=
  ∀ row ∈ table, row.vfs_index = -1 ∨
    (0 ≤ row.vfs_index ∧
      (st.s_vfs.getD row.vfs_index.toNat none).isSome = true)

instance (st : RegistryState) (table : List FdRow) :
    Decidable (fdInv st table) := by
  unfold fdInv
  infer_instance

/-- Concrete states for the descriptor-table claims: one backend at /a in
slot 0, and a table whose row 0 is a permanent row of that backend. -/
def c3Entry : VfsEntry := ⟨['/', 'a'], false, 0⟩

def c3Reg : RegistryState := ⟨[some c3Entry, none, none, none], 1⟩

def c3Table : List FdRow :=
  ⟨0, 0, true⟩ :: List.replicate 15 FD_TABLE_ENTRY_UNUSED

def c3wPath : List Char := ['/', 'a', '/', 'x']

def openAW : List Char → Int → Int → Int × Int := fun _ _ _ => (0, 7)

def closeAW : Int → Int := fun _ => 0

def opsW : Nat → VfsOpsM := fun _ => ⟨some openAW, some closeAW⟩

def tblFullW : List FdRow := List.replicate MAX_FDS ⟨0, 5, false⟩

def pathAW : List Char := ['/', 'a', '/', 'h', 'i']

/-- pico_vfs_internal_dir_t from vfs.c: the root directory backend handle,
reduced to its offset field d_off. -/
structure InternalDir where
  d_off : Nat
deriving DecidableEq

/-- pico_vfs_root_seekdir from vfs.c: d_off is assigned only when
0 <= loc < VFS_MAX_COUNT. -/
def pico_vfs_root_seekdir (d : InternalDir) (loc : Int) : InternalDir :=
  if 0 ≤ loc ∧ loc < (VFS_MAX_COUNT : Int) then ⟨loc.toNat⟩ else d

/-- pico_vfs_root_telldir from vfs.c. -/
def pico_vfs_root_telldir (d : InternalDir) : Int := (d.d_off : Int)

/-- Modelled from the claim's words, for comparison with the source:
seekdir read as setting d_off to loc clamped into [0, VFS_MAX_COUNT). -/
def seekdirClampedSpec (_d : InternalDir) (loc : Int) : InternalDir :=
  ⟨(max 0 (min loc ((VFS_MAX_COUNT : Int) - 1))).toNat⟩

/-- Which destroy hook a block device's vtable carries: a device-specific
user destructor (modelled as only recording the destruction) or
pico_blockdev_part_destroy from partition.c, which also unrefs the
parent. -/
inductive DestroyKind
  | user
  | part
deriving DecidableEq

/-- One pico_blockdev_t as heap record: refcount, parent pointer, child
link list (device ids, newest first as add_child prepends), destroy hook,
the partition fields start_sector and num_sectors, plus bookkeeping for
the claims: whether the storage is still allocated and how many times the
vtable destroy has run. -/
structure BlkDev where
  refcnt : Nat
  parent : Option Nat
  children : List Nat
  destroyKind : DestroyKind
  start_sector : Nat
  num_sectors : Nat
  alive : Bool
  destroyCount : Nat
deriving DecidableEq

def dummyDev : BlkDev := ⟨0, none, [], DestroyKind.user, 0, 0, false, 0⟩

/-- The block-device heap (ids are positions in devs, allocation appends)
plus the emitted registration events, unregistration events (with the
possibly-NULL argument of pico_blockdev_unregister_event) and the number
of BLKDEV_ERROR logs. -/
structure BlkWorld where
  devs : List BlkDev
  regEvents : List Nat
  unregEvents : List (Option Nat)
  errLogs : Nat
deriving DecidableEq

def getDev (w : BlkWorld) (i : Nat) : Option BlkDev := w.devs[i]?

def setDev (w : BlkWorld) (i : Nat) (d : BlkDev) : BlkWorld :=
  { w with devs := w.devs.set i d }

/-- pico_object_ref / pico_object_ref_nolock on a device. -/
def refDev (w : BlkWorld) (i : Nat) : BlkWorld :=
  match getDev w i with
  | some d => setDev w i { d with refcnt := d.refcnt + 1 }
  | none => w

/-- The free of the device storage performed by the destroy hooks,
recorded as alive := false and one more destructor invocation. -/
def markDestroyed (w : BlkWorld) (i : Nat) : BlkWorld :=
  match getDev w i with
  | some d =>
    setDev w i { d with alive := false, destroyCount := d.destroyCount + 1 }
  | none => w

/-- pico_object_unref on a device, combined with
pico_blockdev_destroy_object (blockdev.c) and the vtable destroy hook:
decrement the refcount; at zero run the destroy (for a partition child,
pico_blockdev_part_destroy first unrefs the parent) and return NULL,
otherwise return the device.  Fuel bounds the parent unref chain. -/
def unrefDev : Nat → BlkWorld → Nat → BlkWorld × Option Nat
  | 0, w, i => (w, some i)
  | Nat.succ fuel, w, i =>
    match getDev w i with
    | none => (w, some i)
    | some d =>
      if d.refcnt - 1 = 0 then
        match d.destroyKind with
        | DestroyKind.user =>
          (markDestroyed (setDev w i { d with refcnt := 0 }) i, none)
        | DestroyKind.part =>
          match d.parent with
          | some p =>
            (markDestroyed
              (unrefDev fuel (setDev w i { d with refcnt := 0 }) p).1 i,
              none)
          | none =>
            (markDestroyed (setDev w i { d with refcnt := 0 }) i, none)
      else (setDev w i { d with refcnt := d.refcnt - 1 }, some i)

/-- pico_blockdev_add_child from blockdev.c: EALREADY when the child has a
parent, ENOMEM when the link allocation fails, otherwise prepend the link,
set the child's parent, and take a reference on the child and on the
parent. -/
def pico_blockdev_add_child (w : BlkWorld) (devI childI : Nat)
    (linkAllocOk : Bool) : BlkWorld × Int :=
  match getDev w childI, getDev w devI with
  | some child, some dev =>
    if ¬ child.parent = none then (w, -EALREADY)
    else if linkAllocOk = false then (w, -ENOMEM)
    else
      (refDev
        (refDev
          (setDev (setDev w devI { dev with children := childI :: dev.children })
            childI { child with parent := some devI })
          childI)
        devI, 0)
  | _, _ => (w, -1)

/-- pico_blockdev_extractle32 from partition.c. -/
def pico_blockdev_extractle32 (b0 b1 b2 b3 : Nat) : Nat :=
  b0 ||| (b1 <<< 8) ||| (b2 <<< 16) ||| (b3 <<< 24)

/-- Selector for the mutually recursive trio pico_blockdev_register,
pico_blockdev_scan_partitions and pico_blockdev_check_msdos_partition. -/
inductive BlkCall
  | reg (i : Nat)
  | scan (devI : Nat)
  | check (devI idx : Nat)

/-- Combined fuel-indexed interpreter for the mutual recursion
pico_blockdev_register (blockdev.c) -> pico_blockdev_scan_partitions ->
pico_blockdev_check_msdos_partition (partition.c) -> register of the new
partition child; one fuel unit is consumed at every nested call so the
recursion is structural and kernel-evaluable.  readR and sect model each
device's read_sector behaviour (result code and sector-0 bytes); allocOk
and linkAllocOk are the malloc oracles per partition entry.  A crash
(NULL dereference) is Except.error.

reg: scan for partitions when the device has no parent, emit the
registration event, drop the caller's reference.

scan: read sector 0; when exactly one sector came back and the 0x55 0xAA
signature is present, check the four entries at offset 0x1BE; log an
error when the read failed.

check: for an entry with non-zero system indicator, extract the
little-endian start and count, malloc the partition child (the source
passes the result straight to pico_blockdev_init with no NULL check, so a
failed allocation dereferences NULL: Except.error), add it as a child and
register it; on add failure log and continue. -/
def blkRun (readR : Nat → Int) (sect : Nat → Nat → Nat)
    (allocOk linkAllocOk : Nat → Bool) :
    Nat → BlkCall → BlkWorld → Except Unit BlkWorld
  | 0, _, _ => Except.error ()
  | Nat.succ f, BlkCall.reg i, w =>
    (match getDev w i with
    | none => Except.error ()
    | some d =>
      (if d.parent = none then
        blkRun readR sect allocOk linkAllocOk f (BlkCall.scan i) w
      else Except.ok w).bind (fun w1 =>
        Except.ok
          ((unrefDev (Nat.succ f)
            { w1 with regEvents := w1.regEvents ++ [i] } i).1)))
  | Nat.succ f, BlkCall.scan devI, w =>
    if readR devI = 1 then
      if sect devI 510 = 0x55 ∧ sect devI 511 = 0xAA then
        (blkRun readR sect allocOk linkAllocOk f
            (BlkCall.check devI 0) w).bind (fun w0 =>
          (blkRun readR sect allocOk linkAllocOk f
              (BlkCall.check devI 1) w0).bind (fun w1 =>
            (blkRun readR sect allocOk linkAllocOk f
                (BlkCall.check devI 2) w1).bind (fun w2 =>
              blkRun readR sect allocOk linkAllocOk f
                (BlkCall.check devI 3) w2)))
      else Except.ok w
    else Except.ok { w with errLogs := w.errLogs + 1 }
  | Nat.succ f, BlkCall.check devI idx, w =>
    if ¬ sect devI (446 + idx * 16 + 4) = 0 then
      if allocOk idx = false then Except.error ()
      else
        match pico_blockdev_add_child
            { w with devs := w.devs ++
              [⟨1, none, [], DestroyKind.part,
                pico_blockdev_extractle32
                  (sect devI (446 + idx * 16 + 8))
                  (sect devI (446 + idx * 16 + 9))
                  (sect devI (446 + idx * 16 + 10))
                  (sect devI (446 + idx * 16 + 11)),
                pico_blockdev_extractle32
                  (sect devI (446 + idx * 16 + 12))
                  (sect devI (446 + idx * 16 + 13))
                  (sect devI (446 + idx * 16 + 14))
                  (sect devI (446 + idx * 16 + 15)),
                true, 0⟩] }
            devI w.devs.length (linkAllocOk idx) with
        | (w2, r) =>
          if r = 0 then
            blkRun readR sect allocOk linkAllocOk f
              (BlkCall.reg w.devs.length) w2
          else Except.ok { w2 with errLogs := w2.errLogs + 1 }
    else Except.ok w

/-- pico_blockdev_register from blockdev.c, as the reg entry point of
blkRun. -/
def pico_blockdev_register (fuel : Nat) (w : BlkWorld) (i : Nat)
    (readR : Nat → Int) (sect : Nat → Nat → Nat)
    (allocOk linkAllocOk : Nat → Bool) : Except Unit BlkWorld :=
  blkRun readR sect allocOk linkAllocOk fuel (BlkCall.reg i) w

/-- pico_blockdev_scan_partitions from partition.c, as the scan entry
point of blkRun. -/
def pico_blockdev_scan_partitions (fuel : Nat) (w : BlkWorld)
    (devI : Nat) (readR : Nat → Int) (sect : Nat → Nat → Nat)
    (allocOk linkAllocOk : Nat → Bool) : Except Unit BlkWorld :=
  blkRun readR sect allocOk linkAllocOk fuel (BlkCall.scan devI) w

/-- pico_blockdev_check_msdos_partition from partition.c, as the check
entry point of blkRun. -/
def pico_blockdev_check_msdos_partition (fuel : Nat) (w : BlkWorld)
    (devI idx : Nat) (readR : Nat → Int) (sect : Nat → Nat → Nat)
    (allocOk linkAllocOk : Nat → Bool) : Except Unit BlkWorld :=
  blkRun readR sect allocOk linkAllocOk fuel (BlkCall.check devI idx) w

/-- pico_blockdev_unregister from blockdev.c: the while (dev &&
dev->children) loop, each iteration recursively unregistering the first
linked child, unreffing dev itself, and detaching the link when dev is
still alive; pico_blockdev_unregister_event fires once at loop exit with
the then-current dev pointer. -/
def pico_blockdev_unregister (fuel : Nat) (w : BlkWorld) (d : Option Nat) :
    BlkWorld :=
  match fuel with
  | 0 => w
  | Nat.succ f =>
    match d with
    | none => { w with unregEvents := w.unregEvents ++ [none] }
    | some i =>
      match getDev w i with
      | none => { w with unregEvents := w.unregEvents ++ [some i] }
      | some dev =>
        match dev.children with
        | [] => { w with unregEvents := w.unregEvents ++ [some i] }
        | link :: rest =>
          match unrefDev (Nat.succ f)
              (pico_blockdev_unregister f w (some link)) i with
          | (w2, d2) =>
            pico_blockdev_unregister f
              (match d2 with
                | some j =>
                  (match getDev w2 j with
                    | some dj => setDev w2 j { dj with children := rest }
                    | none => w2)
                | none => w2) d2

/-- PICO_IOCTL_BLKGETSIZE from blockdev.h. -/
def PICO_IOCTL_BLKGETSIZE : Nat := 0

/-- pico_blockdev_part_ioctl from partition.c: BLKGETSIZE writes
num_sectors through the data pointer (returned here as the second
component); anything else is forwarded to the parent's ioctl when
present, with r staying -1 otherwise. -/
def pico_blockdev_part_ioctl (d : BlkDev) (cmd : Nat)
    (parentIoctl : Option (Nat → Int)) : Int × Option Nat :=
  if cmd = PICO_IOCTL_BLKGETSIZE then (0, some d.num_sectors)
  else
    match parentIoctl with
    | some f => (f cmd, none)
    | none => (-1, none)

def exceptToOption : Except Unit BlkWorld → Option BlkWorld
  | Except.ok w => some w
  | Except.error _ => none

/-- A freshly initialized root device (pico_blockdev_init: refcount 1, no
parent, no children) with a user destroy hook, in an otherwise empty
world. -/
def rootInitWorld : BlkWorld :=
  ⟨[⟨1, none, [], DestroyKind.user, 0, 0, true, 0⟩], [], [], 0⟩

/-- Sector 0 of the S4 scenario: MBR signature, entry 0 with system
indicator 0x0B, start 2048 (bytes 0x00 0x08 0x00 0x00) and count 1024
(bytes 0x00 0x04 0x00 0x00), entries 1-3 with system indicator 0. -/
def c6Sector : Nat → Nat := fun n =>
  if n = 510 then 0x55
  else if n = 511 then 0xAA
  else if n = 450 then 0x0B
  else if n = 455 then 0x08
  else if n = 459 then 0x04
  else 0

def c6ReadR : Nat → Int := fun _ => 1

def c6SectModel : Nat → Nat → Nat := fun _ => c6Sector

def c6Result : Except Unit BlkWorld :=
  pico_blockdev_register 4 rootInitWorld 0 c6ReadR c6SectModel
    (fun _ => true) (fun _ => true)

def c6World : BlkWorld :=
  match c6Result with
  | Except.ok w => w
  | Except.error _ => rootInitWorld

/-- The world after pico_blockdev_unregister on the root of the S4 tree. -/
def c4Result : BlkWorld := pico_blockdev_unregister 8 c6World (some 0)

/-- Sector 0 with two non-empty entries: system indicators 0x0B at entries
0 and 1. -/
def c7Sector : Nat → Nat := fun n =>
  if n = 510 then 0x55
  else if n = 511 then 0xAA
  else if n = 450 then 0x0B
  else if n = 466 then 0x0B
  else 0

def c7SectModel : Nat → Nat → Nat := fun _ => c7Sector

/-- Scan of c7Sector where the malloc for entry 0 fails. -/
def c7Result : Except Unit BlkWorld :=
  pico_blockdev_register 4 rootInitWorld 0 c6ReadR c7SectModel
    (fun i => decide (0 < i)) (fun _ => true)

/-- Scan of c7Sector with all allocations succeeding. -/
def c7AllOkResult : Except Unit BlkWorld :=
  pico_blockdev_register 4 rootInitWorld 0 c6ReadR c7SectModel
    (fun _ => true) (fun _ => true)

/-- Scan of c7Sector where the link allocation inside add_child fails for
entry 0 only. -/
def c7AddFailResult : Except Unit BlkWorld :=
  pico_blockdev_register 4 rootInitWorld 0 c6ReadR c7SectModel
    (fun _ => true) (fun i => decide (0 < i))

theorem take_eq_length_le {path pre : List Char}
    (h : path.take pre.length = pre) : pre.length ≤ path.length := by
  have hlen := congrArg List.length h
  rw [List.length_take] at hlen
  omega

theorem resolveInv_extend_keep {path : List Char}
    {seen : List (Option VfsEntry)} {acc : Option VfsEntry × Int}
    {slot : Option VfsEntry} (h : ResolveInv path seen acc)
    (hcond : ∀ e, slot = some e → specMatches path e →
      ∃ eb, acc.1 = some eb ∧ e.prefixPath.length ≤ eb.prefixPath.length) :
    ResolveInv path (seen ++ [slot]) acc := by
  obtain ⟨h1, h2⟩ := h
  constructor
  · intro hn
    obtain ⟨ha, hb⟩ := h1 hn
    refine ⟨ha, fun e he => ?_⟩
    rcases List.mem_append.mp he with hx | hx
    · exact hb e hx
    · intro hm
      obtain ⟨eb, heb, _⟩ := hcond e (List.mem_singleton.mp hx).symm hm
      rw [hn] at heb
      exact Option.noConfusion heb
  · intro e he
    obtain ⟨ha, hb, hc, hd⟩ := h2 e he
    refine ⟨List.mem_append.mpr (Or.inl ha), hb, hc, fun e' he' hm' => ?_⟩
    rcases List.mem_append.mp he' with hx | hx
    · exact hd e' hx hm'
    · obtain ⟨eb, heb, hle⟩ := hcond e' (List.mem_singleton.mp hx).symm hm'
      rw [he] at heb
      cases heb
      exact hle

theorem resolveStep_inv (path : List Char) (seen : List (Option VfsEntry))
    (acc : Option VfsEntry × Int) (slot : Option VfsEntry)
    (h : ResolveInv path seen acc) :
    ResolveInv path (seen ++ [slot]) (resolveStep path acc slot) := by
  match slot with
  | none =>
    exact resolveInv_extend_keep h (fun e he => Option.noConfusion he)
  | some vfs =>
    simp only [resolveStep]
    by_cases hc1 : vfs.ignored = true
    · rw [if_pos hc1]
      refine resolveInv_extend_keep h (fun e he hm => ?_)
      cases he
      rw [hm.1] at hc1
      exact absurd hc1 (by simp)
    · rw [if_neg hc1]
      by_cases hc2 : path.length < vfs.prefixPath.length ∨
          ¬ path.take vfs.prefixPath.length = vfs.prefixPath
      · rw [if_pos hc2]
        refine resolveInv_extend_keep h (fun e he hm => ?_)
        cases he
        rcases hc2 with hx | hx
        · exact absurd (take_eq_length_le hm.2.1) (by omega)
        · exact absurd hm.2.1 hx
      · rw [if_neg hc2]
        push_neg at hc2
        obtain ⟨hlen, htake⟩ := hc2
        by_cases hc3 : vfs.prefixPath.length = 0 ∧ acc.1 = none
        · rw [if_pos hc3]
          obtain ⟨hk0, haccn⟩ := hc3
          obtain ⟨hm1, hnoseen⟩ := h.1 haccn
          have hmatch : specMatches path vfs :=
            ⟨by simpa using hc1, htake, fun hp _ => absurd hp (by omega)⟩
          constructor
          · intro hn
            exact Option.noConfusion hn
          · intro e he
            cases he
            refine ⟨List.mem_append.mpr (Or.inr (by simp)), hmatch,
              Or.inr ⟨hm1, hk0⟩, fun e' he' hm' => ?_⟩
            rcases List.mem_append.mp he' with hx | hx
            · exact absurd hm' (hnoseen e' hx)
            · cases List.mem_singleton.mp hx
              exact Nat.le_refl _
        · rw [if_neg hc3]
          by_cases hc4 : vfs.prefixPath.length < path.length ∧
              ¬ path[vfs.prefixPath.length]? = some '/'
          · rw [if_pos hc4]
            refine resolveInv_extend_keep h (fun e he hm => ?_)
            cases he
            by_cases hk : vfs.prefixPath.length = 0
            · have haccs : ¬ acc.1 = none := fun hn => hc3 ⟨hk, hn⟩
              match hacc : acc.1 with
              | none => exact absurd hacc haccs
              | some eb => exact ⟨eb, rfl, by omega⟩
            · exact absurd (hm.2.2 (by omega) hc4.1) hc4.2
          · rw [if_neg hc4]
            push_neg at hc4
            have hmatch : specMatches path vfs :=
              ⟨by simpa using hc1, htake, fun _ hp => hc4 hp⟩
            by_cases hc5 : acc.2 < (vfs.prefixPath.length : Int)
            · rw [if_pos hc5]
              constructor
              · intro hn
                exact Option.noConfusion hn
              · intro e he
                cases he
                refine ⟨List.mem_append.mpr (Or.inr (by simp)), hmatch,
                  Or.inl rfl, fun e' he' hm' => ?_⟩
                rcases List.mem_append.mp he' with hx | hx
                · match hacc : acc.1 with
                  | none => exact absurd hm' ((h.1 hacc).2 e' hx)
                  | some eb =>
                    obtain ⟨_, _, hceb, hdeb⟩ := h.2 eb hacc
                    have hle := hdeb e' hx hm'
                    rcases hceb with hx2 | hx2 <;> omega
                · cases List.mem_singleton.mp hx
                  exact Nat.le_refl _
            · rw [if_neg hc5]
              refine resolveInv_extend_keep h (fun e he hm => ?_)
              cases he
              match hacc : acc.1 with
              | none =>
                have hm1 := (h.1 hacc).1
                exact absurd hc5 (by omega)
              | some eb =>
                obtain ⟨_, _, hceb, _⟩ := h.2 eb hacc
                refine ⟨eb, rfl, ?_⟩
                rcases hceb with hx2 | hx2 <;> omega

theorem foldl_resolve_inv (path : List Char) :
    ∀ (reg seen : List (Option VfsEntry)) (acc : Option VfsEntry × Int),
      ResolveInv path seen acc →
      ResolveInv path (seen ++ reg) (reg.foldl (resolveStep path) acc)
  | [], seen, acc, h => by simpa using h
  | slot :: rest, seen, acc, h => by
    have h1 := resolveStep_inv path seen acc slot h
    have h2 := foldl_resolve_inv path rest (seen ++ [slot]) _ h1
    simpa [List.append_assoc] using h2

/-- C1: pico_vfs_get_vfs_entry_for_path selects an occupied, non-ignored
entry whose stored string is a leading piece of the path subject to the
slash-boundary rule, of maximal length among all such entries (so the
empty default is picked only when nothing longer matches); it returns no
entry exactly when no occupied entry matches. -/
theorem C1_resolve_longest_match (reg : List (Option VfsEntry))
    (path : List Char) :
    (pico_vfs_get_vfs_entry_for_path reg path = none →
      ∀ e, some e ∈ reg → ¬ specMatches path e) ∧
    (∀ e, pico_vfs_get_vfs_entry_for_path reg path = some e →
      some e ∈ reg ∧ specMatches path e ∧
      ∀ e', some e' ∈ reg → specMatches path e' →
        e'.prefixPath.length ≤ e.prefixPath.length) ∧
    ((∀ e, some e ∈ reg → ¬ specMatches path e) →
      pico_vfs_get_vfs_entry_for_path reg path = none) := by
  have hbase : ResolveInv path [] ((none, -1) : Option VfsEntry × Int) := by
    constructor
    · intro _
      exact ⟨rfl, fun e he => absurd he (by simp)⟩
    · intro e he
      exact Option.noConfusion he
  have hinv := foldl_resolve_inv path reg [] (none, -1) hbase
  rw [List.nil_append] at hinv
  refine ⟨?_, ?_, ?_⟩
  · intro hn e he
    exact (hinv.1 hn).2 e he
  · intro e he
    obtain ⟨ha, hb, _, hd⟩ := hinv.2 e he
    exact ⟨ha, hb, hd⟩
  · intro hnm
    match hres : pico_vfs_get_vfs_entry_for_path reg path with
    | none => rfl
    | some e =>
      obtain ⟨ha, hb, _, _⟩ := hinv.2 e hres
      exact absurd hb (hnm e ha)

/-- Witness for C1 at a concrete registry and path: resolving /dev/x in a
registry holding /devices and /dev yields an entry matching the claim's
rule. -/
theorem C1_resolve_longest_match_witness : specMatches pathW devEntryW :=
  ((C1_resolve_longest_match regW pathW).2.1 devEntryW (by decide)).2.1

/-- C2: the claim says a failed pico_vfs_register returns a negative error
code and does not emit the registration notification.  On the failing
input "/" (length 1, rejected with EINVAL), pico_vfs_register_common
returns the positive value EINVAL, the r < 0 guard of pico_vfs_register
misses it, and the function emits pico_vfs_register_event anyway while
returning -1 instead of the error code. -/
theorem C2_register_failure_emits_event :
    (pico_vfs_register_common initRegistry true ['/'] (some 1)).2.1 =
      EINVAL ∧
    0 < EINVAL ∧
    (pico_vfs_register initRegistry true ['/']).ret = -1 ∧
    (pico_vfs_register initRegistry true ['/']).event = true := by
  decide

/-- C10: the claim says argument validation of pico_vfs_register_fd_range
rejects any range touching row MAX_FDS, in particular
min_fd = max_fd = MAX_FDS.  The source compares with
min_fd > MAX_FDS / max_fd > MAX_FDS, so the range [16, 16] passes
validation (the call is not rejected), and the reservation loop then
writes descriptor row 16, which is not strictly below MAX_FDS (an
out-of-bounds write into the 16-row s_fd_table array). -/
theorem C10_fd_range_off_by_one :
    ¬ (pico_vfs_register_fd_range initRegistry emptyFdTable true 16 16).ret
        = EINVAL ∧
    (pico_vfs_register_fd_range initRegistry emptyFdTable true 16 16).writes
        = [16] ∧
    ¬ 16 < MAX_FDS := by
  decide

theorem openFindSlot_some {table : List FdRow} {i : Nat}
    (h : openFindSlot table = some i) :
    i < table.length ∧
    (table.getD i FD_TABLE_ENTRY_UNUSED).vfs_index = -1 ∧
    ∀ j, j < i → ¬ (table.getD j FD_TABLE_ENTRY_UNUSED).vfs_index = -1 := by
  induction table generalizing i with
  | nil => simp [openFindSlot] at h
  | cons r rs ih =>
    by_cases hr : r.vfs_index = -1
    · rw [openFindSlot, if_pos hr] at h
      injection h with h
      subst h
      exact ⟨by simp, by simpa using hr, fun j hj => absurd hj (by omega)⟩
    · rw [openFindSlot, if_neg hr] at h
      cases hrec : openFindSlot rs with
      | none => rw [hrec] at h; simp at h
      | some j =>
        rw [hrec] at h
        have hi : j + 1 = i := by simpa using h
        subst hi
        obtain ⟨h1, h2, h3⟩ := ih hrec
        refine ⟨by simpa using Nat.succ_lt_succ h1, by simpa using h2,
          fun m hm => ?_⟩
        cases m with
        | zero => simpa using hr
        | succ m => simpa using h3 m (by omega)

theorem fdInv_set {st : RegistryState} {table : List FdRow}
    (hinv : fdInv st table) (n : Nat) (row : FdRow)
    (hrow : row.vfs_index = -1 ∨
      (0 ≤ row.vfs_index ∧
        (st.s_vfs.getD row.vfs_index.toNat none).isSome = true)) :
    fdInv st (table.set n row) := by
  intro r hr
  rcases List.mem_or_eq_of_mem_set hr with h | h
  · exact hinv r h
  · subst h
    exact hrow

theorem rollbackGo_mem {index min_fd iEnd : Int} :
    ∀ (j : Nat) (l : List FdRow) (row : FdRow),
      row ∈ rollbackGo index min_fd iEnd j l →
      row ∈ l ∨ row = FD_TABLE_ENTRY_UNUSED := by
  intro j l
  induction l generalizing j with
  | nil => intro row h; simp [rollbackGo] at h
  | cons r rs ih =>
    intro row h
    rw [rollbackGo] at h
    rcases List.mem_cons.mp h with h | h
    · by_cases hc : min_fd ≤ (j : Int) ∧ (j : Int) < iEnd ∧
          r.vfs_index = index
      · rw [if_pos hc] at h
        exact Or.inr h
      · rw [if_neg hc] at h
        rw [h]
        exact Or.inl (List.mem_cons_self r rs)
    · rcases ih (j + 1) row h with h | h
      · exact Or.inl (List.mem_cons_of_mem r h)
      · exact Or.inr h

theorem fdRangeGo_inv {st : RegistryState} (indexN : Nat)
    (hocc : (st.s_vfs.getD indexN none).isSome = true) :
    ∀ (fuel : Nat) (min_fd i : Int) (table : List FdRow)
      (writes : List Nat), fdInv st table →
      fdInv st (fdRangeGo (indexN : Int) min_fd i fuel table writes).1 := by
  intro fuel
  induction fuel with
  | zero =>
    intro min_fd i table writes h
    simpa [fdRangeGo] using h
  | succ f ih =>
    intro min_fd i table writes h
    rw [fdRangeGo]
    by_cases hc : ¬ (table.getD i.toNat FD_TABLE_ENTRY_UNUSED).vfs_index
        = -1
    · rw [if_pos hc]
      intro row hrow
      rcases rollbackGo_mem 0 table row hrow with hx | hx
      · exact h row hx
      · subst hx
        exact Or.inl rfl
    · rw [if_neg hc]
      exact ih min_fd (i + 1) _ _
        (fdInv_set h i.toNat ⟨(indexN : Int), i, true⟩
          (Or.inr ⟨Int.natCast_nonneg _, by simpa using hocc⟩))

theorem close_table_cases (st : RegistryState) (table : List FdRow)
    (ops : Nat → VfsOpsM) (fd : Int) :
    (pico_vfs_close st table ops fd).table = table ∨
    (pico_vfs_close st table ops fd).table =
      table.set fd.toNat FD_TABLE_ENTRY_UNUSED := by
  unfold pico_vfs_close
  repeat' split
  all_goals first
  | exact Or.inl rfl
  | exact Or.inr rfl

theorem open_table_cases (st : RegistryState) (table : List FdRow)
    (ops : Nat → VfsOpsM) (path : List Char) (flags mode : Int)
    (vfs : VfsEntry)
    (hres : pico_vfs_get_vfs_entry_for_path
        (st.s_vfs.take st.s_vfs_count) path = some vfs) :
    (pico_vfs_open st table ops path flags mode).table = table ∨
    ∃ i fdw, (pico_vfs_open st table ops path flags mode).table =
      table.set i ⟨(vfs.index : Int), fdw, false⟩ := by
  simp only [pico_vfs_open, hres]
  repeat' split
  all_goals first
  | exact Or.inl rfl
  | exact Or.inr ⟨_, _, rfl⟩

/-- C5: for every pico_vfs_open call whose backend open succeeds with
local descriptor fdw: when a row is free the lowest-index free row is
reserved for the resolved backend and its index returned; when all rows
are occupied the call returns -1 with errno ENFILE, leaves the table
unchanged, and has invoked the backend close on fdw. -/
theorem C5_open_descriptor_allocation (st : RegistryState)
    (table : List FdRow) (ops : Nat → VfsOpsM) (path : List Char)
    (flags mode : Int) (vfs : VfsEntry)
    (hres : pico_vfs_get_vfs_entry_for_path
        (st.s_vfs.take st.s_vfs_count) path = some vfs)
    (f : List Char → Int → Int → Int × Int)
    (hopen : (ops vfs.index).openF = some f) (fdw : Int)
    (hret : f (translate_path vfs.prefixPath path) flags mode = (0, fdw))
    (g : Int → Int) (hclose : (ops vfs.index).closeF = some g) :
    (∀ i, openFindSlot table = some i →
      pico_vfs_open st table ops path flags mode =
        ⟨table.set i ⟨(vfs.index : Int), fdw, false⟩, (i : Int), none,
          []⟩ ∧
      i < table.length ∧
      (table.getD i FD_TABLE_ENTRY_UNUSED).vfs_index = -1 ∧
      ∀ j, j < i →
        ¬ (table.getD j FD_TABLE_ENTRY_UNUSED).vfs_index = -1) ∧
    (openFindSlot table = none →
      pico_vfs_open st table ops path flags mode =
        ⟨table, -1, some ENFILE, [fdw]⟩) := by
  constructor
  · intro i hslot
    obtain ⟨h1, h2, h3⟩ := openFindSlot_some hslot
    refine ⟨?_, h1, h2, h3⟩
    simp [pico_vfs_open, hres, hopen, hret, hslot]
  · intro hslot
    simp [pico_vfs_open, hres, hopen, hret, hslot, hclose]

/-- Witness for C5: with one backend at /a whose open yields local
descriptor 7, opening /a/hi on an all-free table reserves row 0, and on an
all-occupied table fails with ENFILE after closing 7. -/
theorem C5_open_descriptor_allocation_witness :
    pico_vfs_open c3Reg emptyFdTable opsW pathAW 0 0 =
      ⟨emptyFdTable.set 0 ⟨0, 7, false⟩, 0, none, []⟩ ∧
    pico_vfs_open c3Reg tblFullW opsW pathAW 0 0 =
      ⟨tblFullW, -1, some ENFILE, [7]⟩ :=
  ⟨((C5_open_descriptor_allocation c3Reg emptyFdTable opsW pathAW 0 0
      c3Entry (by decide) openAW rfl 7 rfl closeAW rfl).1 0
      (by decide)).1,
    (C5_open_descriptor_allocation c3Reg tblFullW opsW pathAW 0 0
      c3Entry (by decide) openAW rfl 7 rfl closeAW rfl).2 (by decide)⟩

/-- C3 counterexample: in a state satisfying the row invariant, with a
permanent row 0 pointing at backend 0, pico_vfs_unregister 0 succeeds yet
leaves the descriptor table untouched: row 0 is still occupied, still
carries backend index 0, and slot 0 is now empty, so the claimed
invariant-preservation by unregister is false. -/
theorem C3_unregister_counterexample :
    fdInv c3Reg c3Table ∧
    (pico_vfs_unregister c3Reg c3Table 0).ret = 0 ∧
    (pico_vfs_unregister c3Reg c3Table 0).table = c3Table ∧
    ¬ ((pico_vfs_unregister c3Reg c3Table 0).table.getD 0
        FD_TABLE_ENTRY_UNUSED).vfs_index = -1 ∧
    ((pico_vfs_unregister c3Reg c3Table 0).table.getD 0
        FD_TABLE_ENTRY_UNUSED).vfs_index = 0 ∧
    ((pico_vfs_unregister c3Reg c3Table 0).table.getD 0
        FD_TABLE_ENTRY_UNUSED).permanent = true ∧
    (pico_vfs_unregister c3Reg c3Table 0).reg.s_vfs.getD 0 none = none :=
  by decide

/-- C3 (amended): open, close and the fd-range reservation preserve the
invariant that every descriptor row is free or names an occupied registry
slot (for the backend being installed, under the hypothesis that its slot
is occupied, which registration guarantees); pico_vfs_unregister however
does not modify the descriptor table at all, so rows carrying the
unregistered index remain occupied. -/
theorem C3_table_invariant_amended (st : RegistryState)
    (table : List FdRow) (hinv : fdInv st table) :
    (∀ ops fd, fdInv st (pico_vfs_close st table ops fd).table) ∧
    (∀ ops path flags mode (vfs : VfsEntry),
      pico_vfs_get_vfs_entry_for_path (st.s_vfs.take st.s_vfs_count)
        path = some vfs →
      (st.s_vfs.getD vfs.index none).isSome = true →
      fdInv st (pico_vfs_open st table ops path flags mode).table) ∧
    (∀ (indexN : Nat) (min_fd max_fd : Int),
      (st.s_vfs.getD indexN none).isSome = true →
      fdInv st (pico_vfs_register_fd_range_for_vfs_index table
        (indexN : Int) min_fd max_fd).1) ∧
    (∀ index, (pico_vfs_unregister st table index).table = table) := by
  refine ⟨?_, ?_, ?_, ?_⟩
  · intro ops fd
    rcases close_table_cases st table ops fd with h | h <;> rw [h]
    · exact hinv
    · exact fdInv_set hinv _ _ (Or.inl rfl)
  · intro ops path flags mode vfs hres hocc
    rcases open_table_cases st table ops path flags mode vfs hres with
      h | ⟨i, fdw, h⟩ <;> rw [h]
    · exact hinv
    · refine fdInv_set hinv _ _ (Or.inr ⟨Int.natCast_nonneg _, ?_⟩)
      simpa using hocc
  · intro indexN min_fd max_fd hocc
    unfold pico_vfs_register_fd_range_for_vfs_index
    exact fdRangeGo_inv indexN hocc _ min_fd min_fd table [] hinv
  · intro index
    unfold pico_vfs_unregister
    split <;> rfl

/-- Witness for the amended C3 at the concrete state: the invariant holds
after close, open and an fd-range reservation, and unregister leaves the
table exactly as it was. -/
theorem C3_table_invariant_amended_witness :
    fdInv c3Reg (pico_vfs_close c3Reg c3Table opsW 0).table ∧
    fdInv c3Reg (pico_vfs_open c3Reg c3Table opsW c3wPath 0 0).table ∧
    fdInv c3Reg (pico_vfs_register_fd_range_for_vfs_index c3Table
      ((0 : Nat) : Int) 2 3).1 ∧
    (pico_vfs_unregister c3Reg c3Table 5).table = c3Table :=
  ⟨(C3_table_invariant_amended c3Reg c3Table (by decide)).1 opsW 0,
    (C3_table_invariant_amended c3Reg c3Table (by decide)).2.1 opsW
      c3wPath 0 0 c3Entry (by decide) (by decide),
    (C3_table_invariant_amended c3Reg c3Table (by decide)).2.2.1 0 2 3
      (by decide),
    (C3_table_invariant_amended c3Reg c3Table (by decide)).2.2.2 5⟩

/-- C8 counterexample: with the handle at offset 2, seekdir(-1) under the
source leaves the handle unchanged, whereas the claim's clamped semantics
would set the offset to 0. -/
theorem C8_seekdir_clamp_counterexample :
    ¬ pico_vfs_root_seekdir ⟨2⟩ (-1) = seekdirClampedSpec ⟨2⟩ (-1) := by
  decide

/-- C8 (amended): telldir returns d_off, and seekdir(loc) sets d_off to
loc when 0 <= loc < VFS_MAX_COUNT but ignores any out-of-range loc,
leaving the handle unchanged (the offset is not clamped). -/
theorem C8_seekdir_amended (d : InternalDir) (loc : Int) :
    pico_vfs_root_telldir d = (d.d_off : Int) ∧
    (0 ≤ loc → loc < (VFS_MAX_COUNT : Int) →
      (pico_vfs_root_seekdir d loc).d_off = loc.toNat) ∧
    (loc < 0 ∨ (VFS_MAX_COUNT : Int) ≤ loc →
      pico_vfs_root_seekdir d loc = d) := by
  refine ⟨rfl, ?_, ?_⟩
  · intro h1 h2
    unfold pico_vfs_root_seekdir
    rw [if_pos ⟨h1, h2⟩]
  · intro h
    unfold pico_vfs_root_seekdir
    rw [if_neg]
    rintro ⟨h1, h2⟩
    rcases h with h | h <;> omega

/-- Witness for the amended C8 at concrete inputs: seekdir 2 stores 2,
seekdir 7 is ignored. -/
theorem C8_seekdir_amended_witness :
    (pico_vfs_root_seekdir ⟨1⟩ 2).d_off = (2 : Int).toNat ∧
    pico_vfs_root_seekdir ⟨1⟩ 7 = ⟨1⟩ :=
  ⟨(C8_seekdir_amended ⟨1⟩ 2).2.1 (by decide) (by decide),
    (C8_seekdir_amended ⟨1⟩ 7).2.2 (by decide)⟩

/-- C9: for every root-backend handle state, including the offset
VFS_MAX_COUNT reached after readdir passes the last slot,
seekdir(telldir(d)) leaves the handle unchanged: an in-range offset is
re-stored verbatim and an out-of-range offset is ignored. -/
theorem C9_seekdir_telldir_noop (d : InternalDir) :
    pico_vfs_root_seekdir d (pico_vfs_root_telldir d) = d := by
  unfold pico_vfs_root_seekdir pico_vfs_root_telldir
  by_cases h : 0 ≤ (d.d_off : Int) ∧ (d.d_off : Int) < (VFS_MAX_COUNT : Int)
  · rw [if_pos h]
    cases d with
    | mk o => simp
  · rw [if_neg h]

/-- C6: registering a root device whose sector 0 carries the MBR
signature, entry 0 of type 0x0B with start 2048 and count 1024, and
remaining entries of type 0: the scan succeeds, the parent has exactly
one child, that child is a partition device with start_sector 2048 and
num_sectors 1024, its BLKGETSIZE ioctl returns 0 writing 1024 through the
output pointer, and the type-0 entries produced no further devices. -/
theorem C6_partition_scan_scenario :
    exceptToOption c6Result = some c6World ∧
    c6World.devs.length = 2 ∧
    (c6World.devs.getD 0 dummyDev).children = [1] ∧
    (c6World.devs.getD 1 dummyDev).parent = some 0 ∧
    (c6World.devs.getD 1 dummyDev).destroyKind = DestroyKind.part ∧
    (c6World.devs.getD 1 dummyDev).start_sector = 2048 ∧
    (c6World.devs.getD 1 dummyDev).num_sectors = 1024 ∧
    pico_blockdev_part_ioctl (c6World.devs.getD 1 dummyDev)
      PICO_IOCTL_BLKGETSIZE none = (0, some 1024) := by
  decide

/-- C4: the claim says unregistering the root of the S4 tree runs every
device's destructor exactly once.  Evaluating pico_blockdev_unregister on
that tree (root refcount 1 held by the child, child refcount 1 held by
the parent's link): only the root's destructor runs; the partition child
is never unreffed, keeps refcount 1, stays allocated, and its destructor
never runs. -/
theorem C4_unregister_child_not_destroyed :
    (c4Result.devs.getD 0 dummyDev).destroyCount = 1 ∧
    (c4Result.devs.getD 1 dummyDev).destroyCount = 0 ∧
    (c4Result.devs.getD 1 dummyDev).refcnt = 1 ∧
    (c4Result.devs.getD 1 dummyDev).alive = true := by
  decide

/-- C7: the claim says a per-entry allocation failure is logged and the
remaining entries are still processed.  With entries 0 and 1 both
non-empty: when the child malloc for entry 0 fails the source passes the
NULL result straight to pico_blockdev_init, a NULL dereference that kills
the scan (entry 1 is never reached), though with all allocations
succeeding the same sector yields two children, and a failure inside
add_child (link malloc) is indeed logged and scanning continues to entry
1. -/
theorem C7_alloc_failure_crash :
    exceptToOption c7Result = none ∧
    (exceptToOption c7AllOkResult).map (fun w => w.devs.length) =
      some 3 ∧
    (exceptToOption c7AddFailResult).map (fun w => w.errLogs) = some 1 ∧
    (exceptToOption c7AddFailResult).map
      (fun w => (w.devs.getD 0 dummyDev).children) = some [2] := by
  decide
